import Mathlib

/-!
Verification of PyLogicTools: a shallow embedding of the gate primitives
(logic_gates.py), the truth-table generator (truth_table.py) and the
number-system conversions (number_systems.py), with theorems settling the
specification's claims about them.

Python values passed to the gates are modelled as integers: in Python,
bool is a subtype of int with True == 1 and False == 0, and the truth-table
generator feeds the gates the integers 0 and 1.  Fallible Python calls
(raising TypeError or ValueError) are modelled with Except / Option.
-/

namespace PyLogicTools

/-- Python truthiness of an integer value: bool(x) is True exactly when x is
nonzero. -/
def truthy (x : Int) : Bool := x != 0

/-- Python int(b) for a boolean value b: int(True) = 1, int(False) = 0. -/
def boolToInt (b : Bool) : Int := if b then 1 else 0

/-- AND from logic_gates.py: returns True on the empty input by convention,
otherwise all(inputs), i.e. every input is truthy. -/
def AND (inputs : List Int) : Bool :=
  if inputs.isEmpty then true
  else inputs.all truthy

/-- OR from logic_gates.py: returns False on the empty input by convention,
otherwise any(inputs), i.e. some input is truthy. -/
def OR (inputs : List Int) : Bool :=
  if inputs.isEmpty then false
  else inputs.any truthy

/-- NOT from logic_gates.py: logical negation of the truthiness of a single
value. -/
def NOT (input_val : Int) : Bool := !(truthy input_val)

/-- XOR from logic_gates.py: returns False on the empty input, otherwise
computes true_count = sum(inputs) and returns true_count % 2 == 1.  Note that
Python sums the raw integer values of the inputs (booleans count as 0/1). -/
def XOR (inputs : List Int) : Bool :=
  if inputs.isEmpty then false
  else inputs.sum % 2 == 1

/-- NAND from logic_gates.py: NOT(AND(*inputs)).  The boolean result of AND
is passed to NOT as a Python value, i.e. as the integer 0 or 1. -/
def NAND (inputs : List Int) : Bool := NOT (boolToInt (AND inputs))

/-- NOR from logic_gates.py: NOT(OR(*inputs)). -/
def NOR (inputs : List Int) : Bool := NOT (boolToInt (OR inputs))

/-- XNOR from logic_gates.py: NOT(XOR(*inputs)). -/
def XNOR (inputs : List Int) : Bool := NOT (boolToInt (XOR inputs))

/-- The value of list(product([0, 1], repeat=n)) from truth_table.py:
the tuples of the n-fold Cartesian product of [0, 1] in odometer order, the
first position being the outermost (slowest-varying) loop axis, exactly as
itertools.product enumerates them. -/
def combinations : Nat → List (List Int)
  | 0 => [[]]
  | n + 1 =>
    ((combinations n).map (fun c => 0 :: c)) ++
      ((combinations n).map (fun c => 1 :: c))

/-- A Python callable with a fixed positional arity, as passed to
generate_table for expression_func.  Per the spec's data model the expression
maps a tuple of input values to a single boolean result. -/
structure PyFunc where
  arity : Nat
  run : List Int → Bool

/-- Calling expression_func(*combo): Python raises TypeError when the number
of positional arguments differs from the function's arity, modelled with
Except. -/
def callFunc (f : PyFunc) (args : List Int) : Except String Bool :=
  if args.length = f.arity then Except.ok (f.run args)
  else Except.error "TypeError: argument count mismatch"

/-- The row-building loop of generate_table: for each combo, evaluate
expression_func(*combo), append list(combo) + [int(result)] to the table.
An uncaught exception aborts the loop and propagates, so no partial table is
returned. -/
def buildRows (f : PyFunc) : List (List Int) → Except String (List (List Int))
  | [] => Except.ok []
  | combo :: rest =>
    match callFunc f combo with
    | Except.error e => Except.error e
    | Except.ok result =>
      match buildRows f rest with
      | Except.error e => Except.error e
      | Except.ok tail => Except.ok ((combo ++ [boolToInt result]) :: tail)

/-- generate_table from truth_table.py: enumerate product([0, 1],
repeat=len(variables)) and build one row per combination.  (The source's
parameter name, variables, is a reserved word in Lean; it is called vars
here.) -/
def generate_table (vars : List String) (f : PyFunc) :
    Except String (List (List Int)) :=
  buildRows f (combinations vars.length)

/-- The binary digits of n, most significant first, as produced by Python
bin(n)[2:] for n > 0; empty for n = 0 (unreached in decimal_to_binary, which
returns "0" early). -/
def binRep (n : Nat) : List Char :=
  if h : n = 0 then []
  else binRep (n / 2) ++ [if n % 2 = 1 then '1' else '0']
termination_by n
decreasing_by exact Nat.div_lt_self (Nat.pos_of_ne_zero h) one_lt_two

/-- decimal_to_binary from number_systems.py, on nonnegative Python
integers: "0" for 0, otherwise bin(decimal)[2:]. -/
def decimal_to_binary (decimal : Nat) : String :=
  if decimal = 0 then "0"
  else String.mk (binRep decimal)

/-- The numeric value of a binary digit character, none for any other
character. -/
def binDigitVal (c : Char) : Option Nat :=
  if c = '0' then some 0 else if c = '1' then some 1 else none

/-- Left-to-right accumulation of int(s, 2) over the characters of s. -/
def parseBinAux : List Char → Nat → Option Nat
  | [], acc => some acc
  | c :: cs, acc =>
    match binDigitVal c with
    | some d => parseBinAux cs (acc * 2 + d)
    | none => none

/-- binary_to_decimal from number_systems.py, i.e. int(binary, 2) on plain
digit strings: an empty string or a non-binary character raises ValueError,
modelled as none. -/
def binary_to_decimal (binary : String) : Option Nat :=
  if binary.data.isEmpty then none
  else parseBinAux binary.data 0

/-- The numeric value of a hexadecimal digit character (0-9, a-f, A-F),
none for any other character. -/
def hexDigitVal (c : Char) : Option Nat :=
  if '0' ≤ c ∧ c ≤ '9' then some (c.toNat - '0'.toNat)
  else if 'a' ≤ c ∧ c ≤ 'f' then some (c.toNat - 'a'.toNat + 10)
  else if 'A' ≤ c ∧ c ≤ 'F' then some (c.toNat - 'A'.toNat + 10)
  else none

/-- Left-to-right accumulation of int(s, 16) over the characters of s. -/
def parseHexAux : List Char → Nat → Option Nat
  | [], acc => some acc
  | c :: cs, acc =>
    match hexDigitVal c with
    | some d => parseHexAux cs (acc * 16 + d)
    | none => none

/-- hex_to_decimal from number_systems.py, i.e. int(hex_val, 16) on plain
digit strings. -/
def hex_to_decimal (hex_val : String) : Option Nat :=
  if hex_val.data.isEmpty then none
  else parseHexAux hex_val.data 0

/-- hex_to_binary from number_systems.py: decimal_to_binary(
hex_to_decimal(hex_val)). -/
def hex_to_binary (hex_val : String) : Option String :=
  (hex_to_decimal hex_val).map (fun d => decimal_to_binary d)

/-- The lambda a, b: AND(a, b) that and_table in truth_table.py passes to
generate_table: a two-argument callable evaluating AND on its arguments. -/
def andGate : PyFunc := ⟨2, fun l => AND l⟩

/-- The lambda a, b: OR(a, b) that or_table passes to generate_table. -/
def orGate : PyFunc := ⟨2, fun l => OR l⟩

/-- The lambda a, b: XOR(a, b) that xor_table passes to generate_table. -/
def xorGate : PyFunc := ⟨2, fun l => XOR l⟩

/-- The lambda a: NOT(a) that not_table passes to generate_table: a
one-argument callable evaluating NOT on its argument. -/
def notGate : PyFunc := ⟨1, fun l => NOT (l.headD 0)⟩

/-- C4: on the empty input sequence the gate primitives return their
documented identity values: AND() = True, OR() = False, XOR() = False. -/
theorem empty_gate_identities : AND [] = true ∧ OR [] = false ∧ XOR [] = false :=
  by decide

/-- C6: NAND, NOR and XNOR are exactly the negations of AND, OR and XOR,
with no independent logic; in particular NAND(a, b) = NOT(AND(a, b)) for all
boolean a, b. -/
theorem derived_gates_are_negations :
    (∀ xs : List Int,
      NAND xs = NOT (boolToInt (AND xs)) ∧
      NOR xs = NOT (boolToInt (OR xs)) ∧
      XNOR xs = NOT (boolToInt (XOR xs))) ∧
    (∀ a b : Bool,
      NAND [boolToInt a, boolToInt b] =
        NOT (boolToInt (AND [boolToInt a, boolToInt b])) ∧
      NOR [boolToInt a, boolToInt b] =
        NOT (boolToInt (OR [boolToInt a, boolToInt b])) ∧
      XNOR [boolToInt a, boolToInt b] =
        NOT (boolToInt (XOR [boolToInt a, boolToInt b]))) :=
  ⟨fun _ => ⟨rfl, rfl, rfl⟩, fun _ _ => ⟨rfl, rfl, rfl⟩⟩

/-- C5 counterexample: at the single boolean-coercible input 2, XOR
returns False although the number of truthy inputs is 1, which is odd: the
code tests the parity of sum(inputs), not of the truthy count. -/
theorem xor_truthy_parity_counterexample :
    ¬ (XOR [2] = true ↔ ([2] : List Int).countP truthy % 2 = 1) := by
  decide

/-- C5 amended: on inputs that are canonical booleans (each 0 or 1), XOR
returns True exactly when the number of truthy inputs is odd; no input is
rejected (the function is total on integer inputs). -/
theorem xor_parity_of_boolean_inputs (xs : List Int)
    (h : ∀ x ∈ xs, x = 0 ∨ x = 1) :
    XOR xs = true ↔ xs.countP truthy % 2 = 1 := by
  have hsum : xs.sum = (xs.countP truthy : Int) := by
    induction xs with
    | nil => simp
    | cons a t ih =>
      have ha := h a (List.mem_cons_self a t)
      have ht := ih (fun x hx => h x (List.mem_cons_of_mem a hx))
      rcases ha with ha | ha <;>
        simp [List.sum_cons, List.countP_cons, truthy, ha, ht] <;> ring
  rcases xs with _ | ⟨a, t⟩
  · simp [XOR]
  · rw [XOR]
    simp only [List.isEmpty_cons, Bool.false_eq_true, if_false, beq_iff_eq, hsum]
    constructor <;> intro h2 <;> omega

/-- Witness for the amended C5 theorem at the concrete input [1, 0, 1]. -/
theorem xor_parity_of_boolean_inputs_witness :
    XOR [1, 0, 1] = true ↔ ([1, 0, 1] : List Int).countP truthy % 2 = 1 :=
  xor_parity_of_boolean_inputs [1, 0, 1] (by decide)

/-- list(product([0, 1], repeat=n)) has 2 ^ n elements. -/
theorem length_combinations (n : Nat) : (combinations n).length = 2 ^ n := by
  induction n with
  | zero => rfl
  | succ n ih =>
    simp only [combinations, List.length_append, List.length_map, ih, pow_succ]
    omega

/-- Every tuple enumerated by product([0, 1], repeat=n) has n entries. -/
theorem length_of_mem_combinations {n : Nat} {c : List Int}
    (hc : c ∈ combinations n) : c.length = n := by
  induction n generalizing c with
  | zero =>
    simp only [combinations, List.mem_singleton] at hc
    simp [hc]
  | succ n ih =>
    simp only [combinations, List.mem_append, List.mem_map] at hc
    rcases hc with ⟨d, hd, rfl⟩ | ⟨d, hd, rfl⟩ <;> simp [ih hd]

/-- Every entry of every tuple enumerated by product([0, 1], repeat=n) is
0 or 1. -/
theorem bits_of_mem_combinations {n : Nat} {c : List Int}
    (hc : c ∈ combinations n) : ∀ x ∈ c, x = 0 ∨ x = 1 := by
  induction n generalizing c with
  | zero =>
    simp only [combinations, List.mem_singleton] at hc
    simp [hc]
  | succ n ih =>
    simp only [combinations, List.mem_append, List.mem_map] at hc
    rcases hc with ⟨d, hd, rfl⟩ | ⟨d, hd, rfl⟩ <;>
      intro x hx <;> rcases List.mem_cons.mp hx with rfl | hx
    · left; rfl
    · exact ih hd x hx
    · right; rfl
    · exact ih hd x hx

/-- Completeness of the enumeration: every 0/1 tuple of length n is listed
by product([0, 1], repeat=n). -/
theorem mem_combinations_of_bits {n : Nat} {c : List Int}
    (hlen : c.length = n) (hbits : ∀ x ∈ c, x = 0 ∨ x = 1) :
    c ∈ combinations n := by
  induction n generalizing c with
  | zero =>
    rw [List.length_eq_zero] at hlen
    simp [hlen, combinations]
  | succ n ih =>
    rcases c with _ | ⟨a, t⟩
    · simp at hlen
    · have ht : t ∈ combinations n :=
        ih (by simpa using hlen) (fun x hx => hbits x (List.mem_cons_of_mem a hx))
      have ha := hbits a (List.mem_cons_self a t)
      simp only [combinations, List.mem_append, List.mem_map]
      rcases ha with rfl | rfl
      · exact Or.inl ⟨t, ht, rfl⟩
      · exact Or.inr ⟨t, ht, rfl⟩

/-- The enumeration of product([0, 1], repeat=n) contains no duplicate
tuple. -/
theorem nodup_combinations (n : Nat) : (combinations n).Nodup := by
  induction n with
  | zero => simp [combinations]
  | succ n ih =>
    refine List.Nodup.append ?_ ?_ ?_
    · exact ih.map (fun x y h => by injection h)
    · exact ih.map (fun x y h => by injection h)
    · intro c hc1 hc2
      simp only [List.mem_map] at hc1 hc2
      obtain ⟨d, _, rfl⟩ := hc1
      obtain ⟨e, _, he⟩ := hc2
      exact absurd (congrArg (fun l => l.headD 2) he) (by simp)

/-- The tuples of product([0, 1], repeat=n) are listed in strictly
increasing lexicographic order, with 0 ordered before 1. -/
theorem pairwise_lex_combinations (n : Nat) :
    (combinations n).Pairwise (List.Lex (· < ·)) := by
  induction n with
  | zero => simp [combinations]
  | succ n ih =>
    rw [combinations, List.pairwise_append]
    refine ⟨?_, ?_, ?_⟩
    · exact List.pairwise_map.mpr (ih.imp fun h => List.Lex.cons h)
    · exact List.pairwise_map.mpr (ih.imp fun h => List.Lex.cons h)
    · intro a ha b hb
      simp only [List.mem_map] at ha hb
      obtain ⟨c, _, rfl⟩ := ha
      obtain ⟨d, _, rfl⟩ := hb
      exact List.Lex.rel (by norm_num)

/-- product([0, 1], repeat=n) always lists at least one tuple (for n = 0 it
lists the empty tuple). -/
theorem combinations_ne_nil (n : Nat) : combinations n ≠ [] := by
  intro hnil
  have h := length_combinations n
  rw [hnil] at h
  have h2 : 0 < 2 ^ n := pow_pos (by norm_num) n
  simp at h
  omega

/-- When every combination has exactly the callable's arity, the
row-building loop succeeds and produces one row per combination. -/
theorem buildRows_ok (f : PyFunc) (l : List (List Int))
    (h : ∀ c ∈ l, c.length = f.arity) :
    buildRows f l = Except.ok (l.map (fun c => c ++ [boolToInt (f.run c)])) := by
  induction l with
  | nil => rfl
  | cons c t ih =>
    have hc : callFunc f c = Except.ok (f.run c) := by
      rw [callFunc, if_pos (h c (List.mem_cons_self c t))]
    rw [List.map_cons]
    simp only [buildRows, hc, ih (fun d hd => h d (List.mem_cons_of_mem c hd))]

/-- When the expression's arity matches the variable count, generate_table
returns the table mapping each combination c to the row c + [int(f(c))]. -/
theorem generate_table_eq_ok (vars : List String) (f : PyFunc)
    (h : f.arity = vars.length) :
    generate_table vars f =
      Except.ok ((combinations vars.length).map
        (fun c => c ++ [boolToInt (f.run c)])) := by
  unfold generate_table
  exact buildRows_ok f _ (fun c hc => by rw [length_of_mem_combinations hc, h])

/-- The input portions of the generated rows are exactly the enumerated
combinations: taking the first len(vars) entries of each row recovers
product([0, 1], repeat=len(vars)). -/
theorem map_take_generate_rows (vars : List String) (f : PyFunc) :
    ((combinations vars.length).map (fun c => c ++ [boolToInt (f.run c)])).map
        (fun r => r.take vars.length) =
      combinations vars.length := by
  rw [List.map_map]
  have h : ∀ c ∈ combinations vars.length,
      ((fun r => List.take vars.length r) ∘ fun c => c ++ [boolToInt (f.run c)]) c =
        id c := by
    intro c hc
    simp only [Function.comp_apply, id_eq]
    exact List.take_left' (length_of_mem_combinations hc)
  rw [List.map_congr_left h, List.map_id]

/-- C1: for every variable list of length N and expression of arity N,
generate_table returns a table of exactly 2 ^ N rows with no duplicated
row. -/
theorem generate_table_row_count (vars : List String) (f : PyFunc)
    (h : f.arity = vars.length) :
    ∃ t, generate_table vars f = Except.ok t ∧
      t.length = 2 ^ vars.length ∧ t.Nodup := by
  refine ⟨_, generate_table_eq_ok vars f h, ?_, ?_⟩
  · rw [List.length_map, length_combinations]
  · refine List.Nodup.map_on ?_ (nodup_combinations _)
    intro c1 h1 c2 h2 he
    have l1 := length_of_mem_combinations h1
    have l2 := length_of_mem_combinations h2
    have h3 := congrArg (fun l => List.take vars.length l) he
    simpa [List.take_left' l1, List.take_left' l2] using h3

/-- Witness for C1 at vars = ["A", "B"] and the AND expression. -/
theorem generate_table_row_count_witness :
    ∃ t, generate_table ["A", "B"] andGate = Except.ok t ∧
      t.length = 2 ^ (["A", "B"] : List String).length ∧ t.Nodup :=
  generate_table_row_count ["A", "B"] andGate rfl

/-- C2: the input portions of the rows of generate_table enumerate the
tuples of the set of 0/1 vectors of length N completely, in strictly
increasing lexicographic order with 0 before 1 and the first variable most
significant; for N = 2 the enumeration is (0,0), (0,1), (1,0), (1,1). -/
theorem generate_table_binary_counter_order (vars : List String) (f : PyFunc)
    (h : f.arity = vars.length) :
    ∃ t, generate_table vars f = Except.ok t ∧
      t.map (fun r => r.take vars.length) = combinations vars.length ∧
      (combinations vars.length).Pairwise (List.Lex (· < ·)) ∧
      (∀ c ∈ combinations vars.length,
        c.length = vars.length ∧ ∀ x ∈ c, x = 0 ∨ x = 1) ∧
      (∀ c : List Int, c.length = vars.length → (∀ x ∈ c, x = 0 ∨ x = 1) →
        c ∈ combinations vars.length) ∧
      combinations 2 = [[0, 0], [0, 1], [1, 0], [1, 1]] := by
  refine ⟨_, generate_table_eq_ok vars f h,
    map_take_generate_rows vars f,
    pairwise_lex_combinations _,
    fun c hc => ⟨length_of_mem_combinations hc, bits_of_mem_combinations hc⟩,
    fun c hlen hbits => mem_combinations_of_bits hlen hbits,
    by decide⟩

/-- Witness for C2 at vars = ["A", "B"] and the XOR expression. -/
theorem generate_table_binary_counter_order_witness :
    ∃ t, generate_table ["A", "B"] xorGate = Except.ok t ∧
      t.map (fun r => r.take (["A", "B"] : List String).length) =
        combinations (["A", "B"] : List String).length ∧
      (combinations (["A", "B"] : List String).length).Pairwise
        (List.Lex (· < ·)) ∧
      (∀ c ∈ combinations (["A", "B"] : List String).length,
        c.length = (["A", "B"] : List String).length ∧
          ∀ x ∈ c, x = 0 ∨ x = 1) ∧
      (∀ c : List Int, c.length = (["A", "B"] : List String).length →
        (∀ x ∈ c, x = 0 ∨ x = 1) →
        c ∈ combinations (["A", "B"] : List String).length) ∧
      combinations 2 = [[0, 0], [0, 1], [1, 0], [1, 1]] :=
  generate_table_binary_counter_order ["A", "B"] xorGate rfl

/-- C3: no two rows of the table returned by generate_table have the same
input portion: the lists of the first N entries of the rows are pairwise
distinct. -/
theorem generate_table_inputs_distinct (vars : List String) (f : PyFunc)
    (h : f.arity = vars.length) :
    ∃ t, generate_table vars f = Except.ok t ∧
      (t.map (fun r => r.take vars.length)).Nodup := by
  refine ⟨_, generate_table_eq_ok vars f h, ?_⟩
  rw [map_take_generate_rows vars f]
  exact nodup_combinations _

/-- Witness for C3 at vars = ["A", "B"] and the OR expression. -/
theorem generate_table_inputs_distinct_witness :
    ∃ t, generate_table ["A", "B"] orGate = Except.ok t ∧
      (t.map (fun r => r.take (["A", "B"] : List String).length)).Nodup :=
  generate_table_inputs_distinct ["A", "B"] orGate rfl

/-- C8: every row of the generated table is an enumerated 0/1 input tuple
followed by the expression's result coerced to an integer, and that integer
is 0 or 1. -/
theorem generate_table_row_shape (vars : List String) (f : PyFunc)
    (h : f.arity = vars.length) :
    ∃ t, generate_table vars f = Except.ok t ∧
      ∀ row ∈ t, ∃ c, c.length = vars.length ∧ (∀ x ∈ c, x = 0 ∨ x = 1) ∧
        row = c ++ [boolToInt (f.run c)] ∧
        (boolToInt (f.run c) = 0 ∨ boolToInt (f.run c) = 1) := by
  refine ⟨_, generate_table_eq_ok vars f h, ?_⟩
  intro row hrow
  obtain ⟨c, hc, rfl⟩ := List.mem_map.mp hrow
  refine ⟨c, length_of_mem_combinations hc, bits_of_mem_combinations hc, rfl, ?_⟩
  cases hb : f.run c <;> simp [boolToInt, hb]

/-- Witness for C8 at vars = ["A", "B"] and the AND expression. -/
theorem generate_table_row_shape_witness :
    ∃ t, generate_table ["A", "B"] andGate = Except.ok t ∧
      ∀ row ∈ t, ∃ c, c.length = (["A", "B"] : List String).length ∧
        (∀ x ∈ c, x = 0 ∨ x = 1) ∧
        row = c ++ [boolToInt (andGate.run c)] ∧
        (boolToInt (andGate.run c) = 0 ∨ boolToInt (andGate.run c) = 1) :=
  generate_table_row_shape ["A", "B"] andGate rfl

/-- C7: when the expression's arity differs from the variable count, the
very first evaluation raises TypeError, the error propagates out of
generate_table uncaught, and no (partial) table is returned. -/
theorem generate_table_arity_mismatch (vars : List String) (f : PyFunc)
    (h : f.arity ≠ vars.length) :
    ∃ e, generate_table vars f = Except.error e := by
  obtain ⟨c, rest, hc⟩ : ∃ c rest, combinations vars.length = c :: rest := by
    cases hl : combinations vars.length with
    | nil => exact absurd hl (combinations_ne_nil _)
    | cons c rest => exact ⟨c, rest, rfl⟩
  have hlen : c.length = vars.length :=
    length_of_mem_combinations (by rw [hc]; exact List.mem_cons_self c rest)
  have hcall : callFunc f c = Except.error "TypeError: argument count mismatch" := by
    rw [callFunc, if_neg (by rw [hlen]; exact fun he => h he.symm)]
  refine ⟨"TypeError: argument count mismatch", ?_⟩
  rw [generate_table, hc]
  simp only [buildRows, hcall]

/-- Witness for C7: a one-argument expression against two variables. -/
theorem generate_table_arity_mismatch_witness :
    ∃ e, generate_table ["A", "B"] notGate = Except.error e :=
  generate_table_arity_mismatch ["A", "B"] notGate (by decide)

/-- Splitting the binary parse across an append of digit lists. -/
theorem parseBinAux_append (xs ys : List Char) (acc : Nat) :
    parseBinAux (xs ++ ys) acc =
      (parseBinAux xs acc).bind (fun a => parseBinAux ys a) := by
  induction xs generalizing acc with
  | nil => rfl
  | cons c cs ih =>
    rcases hbd : binDigitVal c with _ | d <;>
      simp only [List.cons_append, parseBinAux, hbd, Option.some_bind] <;>
      simp [ih]

/-- Parsing the digits of bin(n) back, with any accumulator, recovers n. -/
theorem parseBinAux_binRep (n : Nat) :
    ∀ acc : Nat,
      parseBinAux (binRep n) acc = some (acc * 2 ^ (binRep n).length + n) := by
  induction n using Nat.strong_induction_on with
  | _ n ih =>
    intro acc
    by_cases h : n = 0
    · subst h
      rw [binRep]
      simp [parseBinAux]
    · rw [binRep.eq_def, dif_neg h]
      have hdiv : n / 2 < n := Nat.div_lt_self (Nat.pos_of_ne_zero h) one_lt_two
      have hd : binDigitVal (if n % 2 = 1 then '1' else '0') = some (n % 2) := by
        rcases Nat.mod_two_eq_zero_or_one n with h2 | h2 <;> simp [h2, binDigitVal]
      rw [parseBinAux_append, ih (n / 2) hdiv acc, Option.some_bind]
      simp only [parseBinAux, hd, List.length_append, List.length_singleton]
      congr 1
      have hnm : 2 * (n / 2) + n % 2 = n := Nat.div_add_mod n 2
      have hpow : 2 ^ ((binRep (n / 2)).length + 1) =
          2 ^ (binRep (n / 2)).length * 2 := pow_succ 2 _
      rw [hpow]
      generalize 2 ^ (binRep (n / 2)).length = P at *
      ring_nf
      omega

/-- For positive n, bin(n) has at least one digit. -/
theorem binRep_ne_nil {n : Nat} (h : n ≠ 0) : binRep n ≠ [] := by
  rw [binRep.eq_def, dif_neg h]
  simp

/-- C9: decimal_to_binary(255) is the string "11111111" and
hex_to_binary("FF") is the string "11111111". -/
theorem conversion_examples :
    decimal_to_binary 255 = "11111111" ∧
      hex_to_binary "FF" = some "11111111" := by
  have h2 : decimal_to_binary 255 = "11111111" := by
    simp [decimal_to_binary, binRep]
  refine ⟨h2, ?_⟩
  have h : hex_to_decimal "FF" = some 255 := by decide
  rw [hex_to_binary, h]
  simp [h2]

/-- C10: for every natural number n, converting n to a binary string and
parsing it back yields n, and decimal_to_binary(0) is the one-character
string "0". -/
theorem binary_roundtrip :
    (∀ n : Nat, binary_to_decimal (decimal_to_binary n) = some n) ∧
      decimal_to_binary 0 = "0" := by
  refine ⟨?_, rfl⟩
  intro n
  by_cases h : n = 0
  · subst h; rfl
  · rw [decimal_to_binary, if_neg h, binary_to_decimal]
    have hne : binRep n ≠ [] := binRep_ne_nil h
    have hempty : (String.mk (binRep n)).data.isEmpty = false := by
      cases hb : binRep n with
    | nil => exact absurd hb hne
    | cons c cs => simp [hb]
    rw [hempty]
    simp only [Bool.false_eq_true, if_false]
    rw [parseBinAux_binRep n 0]
    simp

end PyLogicTools
